import Mathlib

/-
Shallow embedding of the proof-request registry in
src/golang/x/relay/keeper/requests.go.

Bytes are lists of naturals (each entry a byte value in the running
program), the prefixed KV store is an association list in which a write
conses a new entry (latest write wins on lookup), and the external
bitcoin-spv oracle (hashing, vin/vout structural validation, input/output
extraction) is a structure of functions, specified only at its interface
boundary as in the specification.  Machine integers are naturals with
explicit reduction modulo 2^64 where the Go code wraps.
-/

abbrev Bytes := List Nat

abbrev Store := List (Bytes × Bytes)

/-- Lookup in the KV store: the most recent write for a key wins. -/
def Store.getKV : Store → Bytes → Option Bytes
  | [], _ => none
  | (k', v) :: rest, k => if k' = k then some v else Store.getKV rest k

/-- Write to the KV store (sdk.KVStore.Set). -/
def Store.setKV (st : Store) (k v : Bytes) : Store := (k, v) :: st

/-- Existence check (sdk.KVStore.Has). -/
def Store.hasKV (st : Store) (k : Bytes) : Bool := (Store.getKV st k).isSome

/-- Big-endian bytes of the low 8*k bits of a natural, most significant first
(binary.BigEndian.PutUint64 is beBytes 8). -/
def beBytes : Nat → Nat → Bytes
  | 0, _ => []
  | k + 1, n => beBytes k (n / 256) ++ [n % 256]

/-- The 8-byte big-endian encoding of a 64-bit value
(binary.BigEndian.PutUint64). -/
def beU64 (n : Nat) : Bytes := beBytes 8 n

/-- Big-endian decoding of a byte string (binary.BigEndian.Uint64 on 8-byte
input). -/
def beToNat (bs : Bytes) : Nat := bs.foldl (fun acc b => acc * 256 + b) 0

/-- Error kinds returned by the keeper, one constructor per types.Err* used in
requests.go (names follow the specification's §7 taxonomy). -/
inductive Err
  | invalidVin
  | invalidVout
  | unknownRequest
  | closedRequest
  | requestPays (id : Nat)
  | requestValue (id : Nat)
  | requestSpends (id : Nat)
  | malformedCounter
  | marshalJSON
  | deserialization
  | fromBTCSPV (msg : String)
deriving DecidableEq

deriving instance DecidableEq for Except

/-- The all-zero 32-byte digest, types.Hash256Digest{} — the wildcard
sentinel meaning "no constraint". -/
def zeroDigest : Bytes := List.replicate 32 0

/-- Modelled from the spec: types.ProofRequest (the record type lives in the
x/relay/types package, which is not under src/); fields follow the §3 data
model table and the struct literal in setRequest.  Origin and Action are
treated as opaque (a natural and raw bytes). -/
structure ProofRequest where
  spends : Bytes
  pays : Bytes
  paysValue : Nat
  activeState : Bool
  numConfs : Nat
  origin : Nat
  action : Bytes
deriving DecidableEq

/-- Modelled from the spec: types.NewProofRequestEvent's payload
(pays, spends, paysValue, id, origin), the creation notification of §4.2. -/
structure Event where
  pays : Bytes
  spends : Bytes
  paysValue : Nat
  id : Nat
  origin : Nat
deriving DecidableEq

/-- Modelled from the spec: types.RequestIDTag, the fixed sentinel counter
key of §6 (a short string key, hence never equal to an 8-byte request key). -/
def requestIDTag : Bytes := [105, 100]

/-- Byte encoding the ActiveState boolean inside the serialized record. -/
def boolByte : Bool → Nat
  | true => 1
  | false => 0

/-- Serialization of a ProofRequest (json.Marshal in the Go code; the
specification's §6 only requires a schema-stable encoding with exact
round-trip, so a length-prefixed field encoding is used; json.Marshal of
this struct cannot fail, so encoding is total). -/
def marshalRequest (r : ProofRequest) : Bytes :=
  r.spends.length :: (r.spends ++
    (r.pays.length :: (r.pays ++
      (r.paysValue :: boolByte r.activeState :: r.numConfs :: r.origin ::
        r.action.length :: r.action))))

/-- Read one length-prefixed chunk from a byte string. -/
def readChunk : Bytes → Option (Bytes × Bytes)
  | [] => none
  | n :: rest => if n ≤ rest.length then some (rest.take n, rest.drop n) else none

/-- Deserialization of a ProofRequest (json.Unmarshal in the Go code),
failing on bytes that are not an exact encoding. -/
def unmarshalRequest (bs : Bytes) : Option ProofRequest :=
  match readChunk bs with
  | none => none
  | some (spends, bs1) =>
    match readChunk bs1 with
    | none => none
    | some (pays, bs2) =>
      match bs2 with
      | pv :: ab :: nc :: og :: rest =>
        match readChunk rest with
        | none => none
        | some (action, tail) =>
          if tail = [] then some ⟨spends, pays, pv, ab == 1, nc, og, action⟩
          else none
      | _ => none

/-- Modelled from the spec: the external Transaction-Byte Oracle of §6
(the btcspv package), as a structure of pure functions.  Extraction returns
bytes or an error; the Go library returns the empty slice alongside an
error. -/
structure Oracle where
  hash256 : Bytes → Bytes
  validateVin : Bytes → Bool
  validateVout : Bytes → Bool
  extractOutputAtIndex : Bytes → Nat → Except String Bytes
  extractInputAtIndex : Bytes → Nat → Except String Bytes
  extractOutpoint : Bytes → Bytes
  extractValue : Bytes → Nat

/-- Modelled from the spec: types.NewRequestID (x/relay/types, not under
src/), per §4.1: fails with MalformedCounter unless given exactly 8 bytes;
the resulting RequestID is the big-endian value of those bytes. -/
def newRequestID (bs : Bytes) : Except Err Nat :=
  if bs.length = 8 then .ok (beToNat bs) else .error .malformedCounter

/-- Keeper.getNextID: lazily initializes an absent counter key to eight zero
bytes, then reads it and converts it to a RequestID. -/
def getNextID (st : Store) : Except Err Nat × Store :=
  let st1 := if Store.hasKV st requestIDTag then st
             else Store.setKV st requestIDTag (List.replicate 8 0)
  (newRequestID ((Store.getKV st1 requestIDTag).getD []), st1)

/-- Keeper.incrementID: reads the counter via getNextID, adds 1 (64-bit
wraparound is performed by the 8-byte encoding beU64), and writes it back. -/
def incrementID (st : Store) : Except Err Unit × Store :=
  match getNextID st with
  | (.error e, st1) => (.error e, st1)
  | (.ok id, st1) => (.ok (), Store.setKV st1 requestIDTag (beU64 (id + 1)))

/-- Keeper.hasRequest: existence of the record key, the 8-byte big-endian
encoding of the RequestID. -/
def hasRequest (st : Store) (id : Nat) : Bool := Store.hasKV st (beU64 id)

/-- Keeper.getRequest: UnknownRequest if the key is absent, otherwise
deserialize the stored bytes. -/
def getRequest (st : Store) (id : Nat) : Except Err ProofRequest × Store :=
  if hasRequest st id = false then (.error .unknownRequest, st)
  else
    match unmarshalRequest ((Store.getKV st (beU64 id)).getD []) with
    | none => (.error .deserialization, st)
    | some request => (.ok request, st)

/-- The ProofRequest literal built by Keeper.setRequest (lines 30-52):
nonempty spends/pays bytes are hashed into digests, empty bytes become the
zero sentinel, and ActiveState starts true. -/
def mkRequest (O : Oracle) (spends pays : Bytes)
    (paysValue numConfs origin : Nat) (action : Bytes) : ProofRequest :=
  ⟨if spends.length = 0 then zeroDigest else O.hash256 spends,
   if pays.length = 0 then zeroDigest else O.hash256 pays,
   paysValue, true, numConfs, origin, action⟩

/-- Keeper.setRequest (create): build the record, allocate the next ID, store
the serialized record under the ID, increment the counter, and emit the
creation event. -/
def setRequest (O : Oracle) (st : Store) (spends pays : Bytes)
    (paysValue numConfs origin : Nat) (action : Bytes) :
    Except Err Unit × Store × List Event :=
  let request := mkRequest O spends pays paysValue numConfs origin action
  match getNextID st with
  | (.error e, st1) => (.error e, st1, [])
  | (.ok id, st1) =>
    let st2 := Store.setKV st1 (beU64 id) (marshalRequest request)
    match incrementID st2 with
    | (.error e, st3) => (.error e, st3, [])
    | (.ok _, st3) =>
      (.ok (), st3, [⟨pays, spends, request.paysValue, id, origin⟩])

/-- Keeper.setRequestState (setActive): read-modify-write of the full record
with only ActiveState overwritten. -/
def setRequestState (st : Store) (requestID : Nat) (active : Bool) :
    Except Err Unit × Store :=
  match getRequest st requestID with
  | (.error e, st1) => (.error e, st1)
  | (.ok request, st1) =>
    let request := { request with activeState := active }
    (.ok (), Store.setKV st1 (beU64 requestID) (marshalRequest request))

/-- Go slice expression bs[i:]; none models the runtime panic raised when i
exceeds the slice length. -/
def goSliceFrom (bs : Bytes) (i : Nat) : Option Bytes :=
  if i ≤ bs.length then some (bs.drop i) else none

/-- The pay-constraint block of Keeper.checkRequests: extraction error is
discarded (the Go library yields the empty slice on error), the digest is
computed over out[8:] (none models the Go panic when out is shorter than 8
bytes), and the value floor applies only when PaysValue is nonzero. -/
def payCheck (O : Oracle) (req : ProofRequest) (outputIndex : Nat)
    (vout : Bytes) (requestID : Nat) : Option (Except Err Unit) :=
  if req.pays ≠ zeroDigest then
    let out := (O.extractOutputAtIndex vout outputIndex).toOption.getD []
    match goSliceFrom out 8 with
    | none => none
    | some script =>
      if O.hash256 script ≠ req.pays then some (.error (.requestPays requestID))
      else if req.paysValue ≠ 0 ∧ O.extractValue out < req.paysValue then
        some (.error (.requestValue requestID))
      else some (.ok ())
  else some (.ok ())

/-- The spend-constraint block of Keeper.checkRequests, including the
redundant inner hasSpends conjunct of the source. -/
def spendCheck (O : Oracle) (req : ProofRequest) (inputIndex : Nat)
    (vin : Bytes) (requestID : Nat) : Except Err Unit :=
  if req.spends ≠ zeroDigest then
    match O.extractInputAtIndex vin inputIndex with
    | .error e => .error (.fromBTCSPV e)
    | .ok inp =>
      if req.spends ≠ zeroDigest ∧ O.hash256 (O.extractOutpoint inp) ≠ req.spends then
        .error (.requestSpends requestID)
      else .ok ()
  else .ok ()

/-- Keeper.checkRequests: structural vin/vout validation, request lookup,
active check, then the pay and spend constraint blocks, short-circuiting on
the first failure; none models a Go runtime panic. -/
def checkRequests (O : Oracle) (st : Store) (inputIndex outputIndex : Nat)
    (vin vout : Bytes) (requestID : Nat) :
    Option (Except Err Unit) × Store :=
  if O.validateVin vin = false then (some (.error .invalidVin), st)
  else if O.validateVout vout = false then (some (.error .invalidVout), st)
  else
    match getRequest st requestID with
    | (.error e, st1) => (some (.error e), st1)
    | (.ok req, st1) =>
      if req.activeState = false then (some (.error .closedRequest), st1)
      else
        match payCheck O req outputIndex vout requestID with
        | none => (none, st1)
        | some (.error e) => (some (.error e), st1)
        | some (.ok _) => (some (spendCheck O req inputIndex vin requestID), st1)

/-- One externally visible registry operation, for stating trace
properties about create interleaved with get and setActive. -/
inductive Op
  | create (spends pays : Bytes) (paysValue numConfs origin : Nat) (action : Bytes)
  | get (id : Nat)
  | setActive (id : Nat) (active : Bool)

/-- Run one operation against the store, discarding results and keeping the
events emitted. -/
def stepOp (O : Oracle) (st : Store) : Op → Store × List Event
  | .create sp pa pv nc og ac =>
    let r := setRequest O st sp pa pv nc og ac
    (r.2.1, r.2.2)
  | .get id => ((getRequest st id).2, [])
  | .setActive id b => ((setRequestState st id b).2, [])

/-- Run a sequence of operations, collecting all emitted events in order. -/
def runTrace (O : Oracle) : Store → List Op → Store × List Event
  | st, [] => (st, [])
  | st, op :: ops =>
    let s := stepOp O st op
    let r := runTrace O s.1 ops
    (r.1, s.2 ++ r.2)

/-- Number of create operations in a trace. -/
def countCreates : List Op → Nat
  | [] => 0
  | .create _ _ _ _ _ _ :: ops => countCreates ops + 1
  | _ :: ops => countCreates ops

/-- Modelled from the spec: a minimal concrete instance of the §6 oracle
interface for witnesses — 37-byte inputs, 9-byte outputs (8 value bytes then
one script byte), extraction failing on an out-of-range index as the real
parser does, and an injective tag-prefixed stand-in for the hash. -/
def toyOracle : Oracle where
  hash256 := fun bs => 1 :: bs
  validateVin := fun bs => decide (bs.length % 37 = 0 ∧ bs.length ≠ 0)
  validateVout := fun bs => decide (bs.length % 9 = 0 ∧ bs.length ≠ 0)
  extractOutputAtIndex := fun vout i =>
    if 9 * (i + 1) ≤ vout.length then .ok ((vout.drop (9 * i)).take 9)
    else .error "output overrun"
  extractInputAtIndex := fun vin i =>
    if 37 * (i + 1) ≤ vin.length then .ok ((vin.drop (37 * i)).take 37)
    else .error "input overrun"
  extractOutpoint := fun inp => inp.take 36
  extractValue := fun out => beToNat (out.take 8)

/-- A structurally valid vin for the toy oracle. -/
def wVin : Bytes := List.replicate 37 0

/-- A one-output vout for the toy oracle: 8 big-endian value bytes then a
single script byte. -/
def wVout (value scriptByte : Nat) : Bytes := beU64 value ++ [scriptByte]

/-- A concrete mixed trace: two creates interleaved with a get and a
setActive. -/
def wOps : List Op :=
  [.create [3] [] 5 1 2 [9], .get 0, .setActive 0 false, .create [] [4] 7 1 2 []]

/-- A pay-constrained request (paysDigest is the toy hash of script byte 5,
value floor 1000). -/
def wReq3 : ProofRequest := ⟨zeroDigest, [1, 5], 1000, true, 0, 0, []⟩

/-- A store holding wReq3 under ID 0. -/
def wSt3 : Store := [(beU64 0, marshalRequest wReq3)]

/-- A wildcard request: both digests are the zero sentinel. -/
def wReq4 : ProofRequest := ⟨zeroDigest, zeroDigest, 0, true, 0, 0, []⟩

/-- A store holding the wildcard request wReq4 under ID 0. -/
def wSt4 : Store := [(beU64 0, marshalRequest wReq4)]

/-- A pay-constrained request with no value floor. -/
def wReq8 : ProofRequest := ⟨zeroDigest, [1, 7], 0, true, 0, 0, []⟩

/-- A store holding wReq8 under ID 0. -/
def wSt8 : Store := [(beU64 0, marshalRequest wReq8)]

/-- A store whose counter sits at the largest 64-bit value. -/
def wCtrMax : Store := [(requestIDTag, beU64 (2 ^ 64 - 1))]

/-- A store whose counter bytes are malformed (3 bytes instead of 8). -/
def wBadCtr : Store := [(requestIDTag, [1, 2, 3])]

theorem getKV_setKV_self (st : Store) (k v : Bytes) :
    Store.getKV (Store.setKV st k v) k = some v := by
  simp [Store.setKV, Store.getKV]

theorem getKV_setKV_ne (st : Store) (k k' v : Bytes) (h : k' ≠ k) :
    Store.getKV (Store.setKV st k v) k' = Store.getKV st k' := by
  simp only [Store.setKV, Store.getKV]
  rw [if_neg (fun h' => h h'.symm)]

theorem isSome_getKV_setKV (st : Store) (k k' v : Bytes)
    (h : (Store.getKV st k').isSome = true) :
    (Store.getKV (Store.setKV st k v) k').isSome = true := by
  by_cases hk : k = k'
  · subst hk; simp [getKV_setKV_self]
  · rwa [getKV_setKV_ne st k k' v (fun h' => hk h'.symm)]

theorem length_beBytes (k n : Nat) : (beBytes k n).length = k := by
  induction k generalizing n with
  | zero => rfl
  | succ k ih => simp [beBytes, ih]

theorem length_beU64 (n : Nat) : (beU64 n).length = 8 := length_beBytes 8 n

theorem beU64_ne_requestIDTag (n : Nat) : beU64 n ≠ requestIDTag := by
  intro h
  have := length_beU64 n
  rw [h] at this
  simp [requestIDTag] at this

theorem beToNat_append_byte (xs : Bytes) (b : Nat) :
    beToNat (xs ++ [b]) = beToNat xs * 256 + b := by
  simp [beToNat, List.foldl_append]

theorem beToNat_beBytes (k n : Nat) : beToNat (beBytes k n) = n % 256 ^ k := by
  induction k generalizing n with
  | zero => simp [beBytes, beToNat, Nat.mod_one]
  | succ k ih =>
    rw [beBytes, beToNat_append_byte, ih, pow_succ']
    rw [Nat.mod_mul]
    ring

theorem beBytes_mod (k n : Nat) : beBytes k (n % 256 ^ k) = beBytes k n := by
  induction k generalizing n with
  | zero => rfl
  | succ k ih =>
    rw [beBytes, beBytes]
    have h1 : n % 256 ^ (k + 1) % 256 = n % 256 := by
      apply Nat.mod_mod_of_dvd
      exact dvd_pow_self 256 (Nat.succ_ne_zero k)
    have h2 : n % 256 ^ (k + 1) / 256 = n / 256 % 256 ^ k := by
      rw [pow_succ']
      exact Nat.mod_mul_right_div_self n 256 (256 ^ k)
    rw [h1, h2, ih]

theorem beToNat_beU64 (n : Nat) : beToNat (beU64 n) = n % 2 ^ 64 := by
  have h : (256 : Nat) ^ 8 = 2 ^ 64 := by norm_num
  rw [beU64, beToNat_beBytes, h]

theorem beToNat_beU64_of_lt (n : Nat) (h : n < 2 ^ 64) : beToNat (beU64 n) = n := by
  rw [beToNat_beU64, Nat.mod_eq_of_lt h]

theorem beU64_mod (n : Nat) : beU64 (n % 2 ^ 64) = beU64 n := by
  have h : (256 : Nat) ^ 8 = 2 ^ 64 := by norm_num
  rw [beU64, beU64, ← h, beBytes_mod]

theorem beU64_zero : beU64 0 = List.replicate 8 0 := by decide

theorem readChunk_encode (l rest : Bytes) :
    readChunk (l.length :: (l ++ rest)) = some (l, rest) := by
  simp [readChunk, List.take_left, List.drop_left]

theorem readChunk_encode_nil (l : Bytes) :
    readChunk (l.length :: l) = some (l, []) := by
  have h := readChunk_encode l []
  simpa using h

theorem boolByte_beq_one (b : Bool) : (boolByte b == 1) = b := by
  cases b <;> rfl

theorem unmarshal_marshal (r : ProofRequest) :
    unmarshalRequest (marshalRequest r) = some r := by
  simp only [marshalRequest, unmarshalRequest, readChunk_encode, readChunk_encode_nil]
  simp [boolByte_beq_one]


theorem requestIDTag_ne_beU64 (n : Nat) : requestIDTag ≠ beU64 n :=
  fun h => beU64_ne_requestIDTag n h.symm

theorem getRequest_snd (st : Store) (id : Nat) : (getRequest st id).2 = st := by
  rw [getRequest]
  split
  · rfl
  · split <;> rfl

theorem getRequest_eta (st : Store) (id : Nat) :
    getRequest st id = ((getRequest st id).1, st) := by
  rw [show ((getRequest st id).1, st) = ((getRequest st id).1, (getRequest st id).2) from by
    rw [getRequest_snd]]

theorem getRequest_eq_ok (st : Store) (id : Nat) (r : ProofRequest) :
    (getRequest st id).1 = .ok r ↔
      ∃ buf, Store.getKV st (beU64 id) = some buf ∧ unmarshalRequest buf = some r := by
  rw [getRequest]
  constructor
  · intro h
    split at h
    · simp at h
    · rename_i hhas
      have hhas' : hasRequest st id = true := by
        revert hhas; cases hasRequest st id <;> simp
      rw [hasRequest, Store.hasKV, Option.isSome_iff_exists] at hhas'
      obtain ⟨buf, hbuf⟩ := hhas'
      refine ⟨buf, hbuf, ?_⟩
      rw [hbuf] at h
      simp only [Option.getD_some] at h
      split at h
      · simp at h
      · rename_i req hreq
        simp only at h
        rw [hreq]
        cases h
        rfl
  · rintro ⟨buf, hbuf, hum⟩
    have hhas : hasRequest st id = true := by
      rw [hasRequest, Store.hasKV, hbuf]; rfl
    rw [hhas]
    simp only [Bool.true_eq_false, if_false, hbuf, Option.getD_some, hum]

theorem getRequest_marshal (st : Store) (id : Nat) (r : ProofRequest) :
    getRequest (Store.setKV st (beU64 id) (marshalRequest r)) id =
      (.ok r, Store.setKV st (beU64 id) (marshalRequest r)) := by
  simp [getRequest, hasRequest, Store.hasKV, getKV_setKV_self, unmarshal_marshal]

theorem getNextID_none (st : Store) (h : Store.getKV st requestIDTag = none) :
    getNextID st = (.ok 0, Store.setKV st requestIDTag (List.replicate 8 0)) := by
  have hhas : Store.hasKV st requestIDTag = false := by rw [Store.hasKV, h]; rfl
  simp only [getNextID, hhas, Bool.false_eq_true, if_false, getKV_setKV_self,
    Option.getD_some]
  rw [newRequestID, if_pos (by simp),
    show beToNat (List.replicate 8 0) = 0 from by decide]

theorem getNextID_some (st : Store) (bs : Bytes)
    (h : Store.getKV st requestIDTag = some bs) :
    getNextID st = (newRequestID bs, st) := by
  have hhas : Store.hasKV st requestIDTag = true := by rw [Store.hasKV, h]; rfl
  simp only [getNextID, hhas, if_true, h, Option.getD_some]

theorem incrementID_some (st : Store) (bs : Bytes)
    (h : Store.getKV st requestIDTag = some bs) (hl : bs.length = 8) :
    incrementID st = (.ok (), Store.setKV st requestIDTag (beU64 (beToNat bs + 1))) := by
  rw [incrementID, getNextID_some st bs h, newRequestID, if_pos hl]

theorem setRequestState_ok (st : Store) (id : Nat) (b : Bool) (r : ProofRequest)
    (h : (getRequest st id).1 = .ok r) :
    setRequestState st id b =
      (.ok (), Store.setKV st (beU64 id) (marshalRequest { r with activeState := b })) := by
  rw [setRequestState, getRequest_eta st id, h]

theorem setRequestState_absent (st : Store) (id : Nat) (b : Bool)
    (h : hasRequest st id = false) :
    setRequestState st id b = (.error .unknownRequest, st) := by
  rw [setRequestState, getRequest, if_pos h]

theorem setRequestState_getKV_tag (st : Store) (id : Nat) (b : Bool) :
    Store.getKV (setRequestState st id b).2 requestIDTag =
      Store.getKV st requestIDTag := by
  rw [setRequestState, getRequest_eta st id]
  cases (getRequest st id).1
  · rfl
  · exact getKV_setKV_ne st (beU64 id) requestIDTag _ (requestIDTag_ne_beU64 id)

theorem setRequestState_isSome (st : Store) (id : Nat) (b : Bool) (k : Bytes)
    (h : (Store.getKV st k).isSome = true) :
    (Store.getKV (setRequestState st id b).2 k).isSome = true := by
  rw [setRequestState, getRequest_eta st id]
  cases (getRequest st id).1
  · exact h
  · exact isSome_getKV_setKV st (beU64 id) k _ h

theorem setRequest_step (O : Oracle) (st : Store) (n : Nat)
    (sp pa : Bytes) (pv nc og : Nat) (ac : Bytes)
    (hn : n < 2 ^ 64)
    (hctr : Store.getKV st requestIDTag = some (beU64 n) ∨
            (n = 0 ∧ Store.getKV st requestIDTag = none)) :
    ∃ st', setRequest O st sp pa pv nc og ac = (.ok (), st', [⟨pa, sp, pv, n, og⟩]) ∧
      Store.getKV st' requestIDTag = some (beU64 (n + 1)) ∧
      (Store.getKV st' (beU64 n)).isSome = true ∧
      (∀ k, k ≠ requestIDTag → k ≠ beU64 n → Store.getKV st' k = Store.getKV st k) := by
  rcases hctr with hsome | ⟨hn0, hnone⟩
  · have hnext : getNextID st = (.ok n, st) := by
      rw [getNextID_some st (beU64 n) hsome, newRequestID,
        if_pos (length_beU64 n), beToNat_beU64_of_lt n hn]
    refine ⟨Store.setKV
        (Store.setKV st (beU64 n) (marshalRequest (mkRequest O sp pa pv nc og ac)))
        requestIDTag (beU64 (n + 1)), ?_, ?_, ?_, ?_⟩
    · simp only [setRequest, hnext]
      rw [incrementID_some _ (beU64 n)
        (by rw [getKV_setKV_ne _ _ _ _ (requestIDTag_ne_beU64 n)]; exact hsome)
        (length_beU64 n)]
      rw [beToNat_beU64_of_lt n hn]
      rfl
    · exact getKV_setKV_self _ _ _
    · rw [getKV_setKV_ne _ _ _ _ (beU64_ne_requestIDTag n), getKV_setKV_self]
      rfl
    · intro k hk1 hk2
      rw [getKV_setKV_ne _ _ _ _ hk1, getKV_setKV_ne _ _ _ _ hk2]
  · subst hn0
    have hnext : getNextID st =
        (.ok 0, Store.setKV st requestIDTag (List.replicate 8 0)) :=
      getNextID_none st hnone
    refine ⟨Store.setKV
        (Store.setKV (Store.setKV st requestIDTag (List.replicate 8 0)) (beU64 0)
          (marshalRequest (mkRequest O sp pa pv nc og ac)))
        requestIDTag (beU64 (0 + 1)), ?_, ?_, ?_, ?_⟩
    · simp only [setRequest, hnext]
      rw [incrementID_some _ (List.replicate 8 0)
        (by rw [getKV_setKV_ne _ _ _ _ (requestIDTag_ne_beU64 0)]
            exact getKV_setKV_self _ _ _)
        (by simp)]
      rw [show beToNat (List.replicate 8 0) = 0 from by decide]
      rfl
    · exact getKV_setKV_self _ _ _
    · rw [getKV_setKV_ne _ _ _ _ (beU64_ne_requestIDTag 0), getKV_setKV_self]
      rfl
    · intro k hk1 hk2
      rw [getKV_setKV_ne _ _ _ _ hk1, getKV_setKV_ne _ _ _ _ hk2,
        getKV_setKV_ne _ _ _ _ hk1]

theorem runTrace_inv (O : Oracle) (ops : List Op) : ∀ (st : Store) (n : Nat),
    n + countCreates ops ≤ 2 ^ 64 →
    (Store.getKV st requestIDTag = some (beU64 n) ∨
      (n = 0 ∧ Store.getKV st requestIDTag = none)) →
    (∀ i, i < n → (Store.getKV st (beU64 i)).isSome = true) →
    ((runTrace O st ops).2.map Event.id = List.range' n (countCreates ops)) ∧
    (∀ i, i < n + countCreates ops →
      (Store.getKV (runTrace O st ops).1 (beU64 i)).isSome = true) := by
  induction ops with
  | nil =>
    intro st n hle hctr hreq
    exact ⟨rfl, fun i hi => hreq i (by simpa using hi)⟩
  | cons op ops ih =>
    intro st n hle hctr hreq
    cases op with
    | create sp pa pv nc og ac =>
      have hcc : countCreates (Op.create sp pa pv nc og ac :: ops) =
          countCreates ops + 1 := rfl
      have hn : n < 2 ^ 64 := by rw [hcc] at hle; omega
      obtain ⟨st', hstep, hctr', hself, hframe⟩ :=
        setRequest_step O st n sp pa pv nc og ac hn hctr
      have hreq' : ∀ i, i < n + 1 → (Store.getKV st' (beU64 i)).isSome = true := by
        intro i hi
        rcases Nat.lt_succ_iff_lt_or_eq.mp hi with h | h
        · by_cases hbe : beU64 i = beU64 n
          · rw [hbe]; exact hself
          · rw [hframe _ (beU64_ne_requestIDTag i) hbe]; exact hreq i h
        · rw [h]; exact hself
      have hrun : runTrace O st (Op.create sp pa pv nc og ac :: ops) =
          ((runTrace O st' ops).1,
            (⟨pa, sp, pv, n, og⟩ : Event) :: (runTrace O st' ops).2) := by
        simp only [runTrace, stepOp, hstep]
        rfl
      have hih := ih st' (n + 1) (by rw [hcc] at hle; omega) (Or.inl hctr') hreq'
      constructor
      · rw [hrun, hcc]
        simp only [List.map_cons]
        rw [hih.1]
        rfl
      · intro i hi
        rw [hrun]
        exact hih.2 i (by rw [hcc] at hi; omega)
    | get id =>
      have hrun : runTrace O st (Op.get id :: ops) = runTrace O st ops := by
        simp only [runTrace, stepOp, getRequest_snd]
        rfl
      have hih := ih st n hle hctr hreq
      exact ⟨by rw [hrun]; exact hih.1, fun i hi => by rw [hrun]; exact hih.2 i hi⟩
    | setActive id b =>
      have hrun : runTrace O st (Op.setActive id b :: ops) =
          runTrace O (setRequestState st id b).2 ops := by
        simp only [runTrace, stepOp]
        rfl
      have hctr2 : Store.getKV (setRequestState st id b).2 requestIDTag =
          some (beU64 n) ∨
          (n = 0 ∧ Store.getKV (setRequestState st id b).2 requestIDTag = none) := by
        rw [setRequestState_getKV_tag]
        exact hctr
      have hreq2 : ∀ i, i < n →
          (Store.getKV (setRequestState st id b).2 (beU64 i)).isSome = true :=
        fun i hi => setRequestState_isSome st id b (beU64 i) (hreq i hi)
      have hih := ih (setRequestState st id b).2 n hle hctr2 hreq2
      exact ⟨by rw [hrun]; exact hih.1, fun i hi => by rw [hrun]; exact hih.2 i hi⟩

theorem checkRequests_snd (O : Oracle) (st : Store) (i o : Nat)
    (vin vout : Bytes) (id : Nat) :
    (checkRequests O st i o vin vout id).2 = st := by
  rw [checkRequests, getRequest_eta st id]
  by_cases h1 : O.validateVin vin = false
  · rw [if_pos h1]
  · rw [if_neg h1]
    by_cases h2 : O.validateVout vout = false
    · rw [if_pos h2]
    · rw [if_neg h2]
      cases hg : (getRequest st id).1 with
      | error e => rfl
      | ok req =>
        by_cases h4 : req.activeState = false
        · simp only [h4, if_true]
        · simp only [if_neg h4]
          cases hp : payCheck O req o vout id with
          | none => rfl
          | some r => cases r <;> rfl

theorem checkRequests_invalidVin (O : Oracle) (st : Store) (i o : Nat)
    (vin vout : Bytes) (id : Nat) (h : O.validateVin vin = false) :
    checkRequests O st i o vin vout id = (some (.error .invalidVin), st) := by
  rw [checkRequests, if_pos h]

theorem checkRequests_invalidVout (O : Oracle) (st : Store) (i o : Nat)
    (vin vout : Bytes) (id : Nat)
    (h1 : O.validateVin vin = true) (h2 : O.validateVout vout = false) :
    checkRequests O st i o vin vout id = (some (.error .invalidVout), st) := by
  rw [checkRequests, if_neg (by rw [h1]; exact fun hc => Bool.noConfusion hc),
    if_pos h2]

theorem checkRequests_lookup_error (O : Oracle) (st : Store) (i o : Nat)
    (vin vout : Bytes) (id : Nat) (e : Err)
    (h1 : O.validateVin vin = true) (h2 : O.validateVout vout = true)
    (he : (getRequest st id).1 = .error e) :
    checkRequests O st i o vin vout id = (some (.error e), st) := by
  rw [checkRequests, if_neg (by rw [h1]; exact fun hc => Bool.noConfusion hc),
    if_neg (by rw [h2]; exact fun hc => Bool.noConfusion hc),
    getRequest_eta st id, he]

theorem checkRequests_body (O : Oracle) (st : Store) (i o : Nat)
    (vin vout : Bytes) (id : Nat) (req : ProofRequest)
    (h1 : O.validateVin vin = true) (h2 : O.validateVout vout = true)
    (h3 : (getRequest st id).1 = .ok req) (h4 : req.activeState = true) :
    checkRequests O st i o vin vout id =
      (match payCheck O req o vout id with
       | none => none
       | some (.error e) => some (.error e)
       | some (.ok _) => some (spendCheck O req i vin id), st) := by
  rw [checkRequests, if_neg (by rw [h1]; exact fun hc => Bool.noConfusion hc),
    if_neg (by rw [h2]; exact fun hc => Bool.noConfusion hc),
    getRequest_eta st id, h3]
  simp only [h4, Bool.true_eq_false, if_false]
  cases hp : payCheck O req o vout id with
  | none => rfl
  | some r => cases r <;> rfl

theorem checkRequests_closed (O : Oracle) (st : Store) (i o : Nat)
    (vin vout : Bytes) (id : Nat) (req : ProofRequest)
    (h1 : O.validateVin vin = true) (h2 : O.validateVout vout = true)
    (h3 : (getRequest st id).1 = .ok req) (h4 : req.activeState = false) :
    checkRequests O st i o vin vout id = (some (.error .closedRequest), st) := by
  rw [checkRequests, if_neg (by rw [h1]; exact fun hc => Bool.noConfusion hc),
    if_neg (by rw [h2]; exact fun hc => Bool.noConfusion hc),
    getRequest_eta st id, h3]
  simp only [h4, if_true]

theorem payCheck_zero (O : Oracle) (req : ProofRequest) (o : Nat) (vout : Bytes)
    (id : Nat) (h : req.pays = zeroDigest) :
    payCheck O req o vout id = some (.ok ()) := by
  rw [payCheck, if_neg (by simp [h])]

theorem spendCheck_zero (O : Oracle) (req : ProofRequest) (i : Nat) (vin : Bytes)
    (id : Nat) (h : req.spends = zeroDigest) :
    spendCheck O req i vin id = .ok () := by
  rw [spendCheck, if_neg (by simp [h])]

theorem spendCheck_ne_requestValue (O : Oracle) (req : ProofRequest) (i : Nat)
    (vin : Bytes) (id j : Nat) :
    spendCheck O req i vin id ≠ .error (.requestValue j) := by
  rw [spendCheck]
  split
  · split
    · simp
    · split <;> simp
  · simp

theorem payCheck_eval (O : Oracle) (req : ProofRequest) (o : Nat) (vout : Bytes)
    (id : Nat) (out : Bytes)
    (hne : req.pays ≠ zeroDigest)
    (hex : O.extractOutputAtIndex vout o = .ok out)
    (hlen : 8 ≤ out.length) :
    payCheck O req o vout id =
      (if O.hash256 (out.drop 8) ≠ req.pays then some (.error (.requestPays id))
       else if req.paysValue ≠ 0 ∧ O.extractValue out < req.paysValue then
         some (.error (.requestValue id))
       else some (.ok ())) := by
  simp only [payCheck, if_pos hne, hex, Except.toOption, Option.getD_some]
  rw [goSliceFrom, if_pos hlen]

theorem getNextID_ok_counter (st : Store) (idv : Nat) (st1 : Store)
    (h : getNextID st = (.ok idv, st1)) :
    ∃ bs, Store.getKV st1 requestIDTag = some bs ∧ bs.length = 8 := by
  cases hkv : Store.getKV st requestIDTag with
  | none =>
    rw [getNextID_none st hkv] at h
    injection h with h1 h2
    refine ⟨List.replicate 8 0, ?_, by simp⟩
    rw [← h2]
    exact getKV_setKV_self _ _ _
  | some bs =>
    rw [getNextID_some st bs hkv] at h
    injection h with h1 h2
    rw [newRequestID] at h1
    by_cases hl : bs.length = 8
    · exact ⟨bs, by rw [← h2]; exact hkv, hl⟩
    · rw [if_neg hl] at h1
      exact Except.noConfusion h1

theorem setRequest_eval_some8 (O : Oracle) (st : Store) (sp pa : Bytes)
    (pv nc og : Nat) (ac : Bytes) (bs : Bytes)
    (hkv : Store.getKV st requestIDTag = some bs) (hl : bs.length = 8) :
    setRequest O st sp pa pv nc og ac =
      (.ok (), Store.setKV
        (Store.setKV st (beU64 (beToNat bs))
          (marshalRequest (mkRequest O sp pa pv nc og ac)))
        requestIDTag (beU64 (beToNat bs + 1)),
       [⟨pa, sp, pv, beToNat bs, og⟩]) := by
  have hg : getNextID st = (.ok (beToNat bs), st) := by
    rw [getNextID_some st bs hkv, newRequestID, if_pos hl]
  simp only [setRequest, hg]
  rw [incrementID_some _ bs
    (by rw [getKV_setKV_ne _ _ _ _ (requestIDTag_ne_beU64 _)]; exact hkv) hl]
  rfl

theorem setRequest_eval_none (O : Oracle) (st : Store) (sp pa : Bytes)
    (pv nc og : Nat) (ac : Bytes)
    (hkv : Store.getKV st requestIDTag = none) :
    setRequest O st sp pa pv nc og ac =
      (.ok (), Store.setKV
        (Store.setKV (Store.setKV st requestIDTag (List.replicate 8 0)) (beU64 0)
          (marshalRequest (mkRequest O sp pa pv nc og ac)))
        requestIDTag (beU64 1),
       [⟨pa, sp, pv, 0, og⟩]) := by
  simp only [setRequest, getNextID_none st hkv]
  rw [incrementID_some _ (List.replicate 8 0)
    (by rw [getKV_setKV_ne _ _ _ _ (requestIDTag_ne_beU64 0)]
        exact getKV_setKV_self _ _ _)
    (by simp)]
  rw [show beToNat (List.replicate 8 0) = 0 from by decide]
  rfl

theorem setRequest_eval_bad (O : Oracle) (st : Store) (sp pa : Bytes)
    (pv nc og : Nat) (ac : Bytes) (bs : Bytes)
    (hkv : Store.getKV st requestIDTag = some bs) (hl : bs.length ≠ 8) :
    setRequest O st sp pa pv nc og ac = (.error .malformedCounter, st, []) := by
  have hg : getNextID st = (.error .malformedCounter, st) := by
    rw [getNextID_some st bs hkv, newRequestID, if_neg hl]
  simp only [setRequest, hg]

/-- C1: Sequential allocation: starting from the empty store, any trace of
create operations interleaved with get/setActive calls emits creation events
whose request IDs are exactly 0, 1, ..., N-1 in order (N the number of
creates), with no gaps or repeats, the interleaved calls not affecting the
IDs assigned; and each created record is stored under the 8-byte big-endian
key beU64 of its ID.  (The bound N ≤ 2^64 reflects the 64-bit counter; the
sentinel counter key is modelled from the spec, §6.) -/
theorem claim_C1_sequential_allocation (O : Oracle) (ops : List Op)
    (hN : countCreates ops ≤ 2 ^ 64) :
    ((runTrace O [] ops).2.map Event.id = List.range (countCreates ops)) ∧
    ((runTrace O [] ops).2.map Event.id).Nodup ∧
    (∀ i, i < countCreates ops →
      (Store.getKV (runTrace O [] ops).1 (beU64 i)).isSome = true) := by
  have h := runTrace_inv O ops [] 0 (by simpa using hN)
    (Or.inr ⟨rfl, rfl⟩) (fun i hi => absurd hi (Nat.not_lt_zero i))
  refine ⟨?_, ?_, ?_⟩
  · rw [h.1, ← List.range_eq_range']
  · rw [h.1, ← List.range_eq_range']
    exact List.nodup_range _
  · intro i hi
    exact h.2 i (by simpa using hi)

theorem claim_C1_witness :
    countCreates wOps ≤ 2 ^ 64 ∧
    (runTrace toyOracle [] wOps).2.map Event.id = List.range (countCreates wOps) ∧
    (runTrace toyOracle [] wOps).2.map Event.id = [0, 1] :=
  ⟨by decide, (claim_C1_sequential_allocation toyOracle wOps (by decide)).1,
   by decide⟩

/-- C2: checkRequests applies its tests in the exact order vin structural
validation (InvalidVin), vout structural validation (InvalidVout), request
lookup (UnknownRequest), active check (ClosedRequest), pay constraint, spend
constraint; the first failing stage fixes the returned error independently
of all later stages — in particular an invalid vin yields InvalidVin for
every store, including one in which the request does not exist. -/
theorem claim_C2_check_order (O : Oracle) (st : Store) (i o : Nat)
    (vin vout : Bytes) (id : Nat) :
    (O.validateVin vin = false →
      checkRequests O st i o vin vout id = (some (.error .invalidVin), st)) ∧
    (O.validateVin vin = true → O.validateVout vout = false →
      checkRequests O st i o vin vout id = (some (.error .invalidVout), st)) ∧
    (O.validateVin vin = true → O.validateVout vout = true →
      hasRequest st id = false →
      checkRequests O st i o vin vout id = (some (.error .unknownRequest), st)) ∧
    (∀ req, O.validateVin vin = true → O.validateVout vout = true →
      (getRequest st id).1 = .ok req → req.activeState = false →
      checkRequests O st i o vin vout id = (some (.error .closedRequest), st)) ∧
    (∀ req e, O.validateVin vin = true → O.validateVout vout = true →
      (getRequest st id).1 = .ok req → req.activeState = true →
      payCheck O req o vout id = some (.error e) →
      checkRequests O st i o vin vout id = (some (.error e), st)) ∧
    (∀ req, O.validateVin vin = true → O.validateVout vout = true →
      (getRequest st id).1 = .ok req → req.activeState = true →
      payCheck O req o vout id = some (.ok ()) →
      checkRequests O st i o vin vout id = (some (spendCheck O req i vin id), st)) := by
  refine ⟨fun h => checkRequests_invalidVin O st i o vin vout id h,
    fun h1 h2 => checkRequests_invalidVout O st i o vin vout id h1 h2,
    fun h1 h2 h3 => ?_,
    fun req h1 h2 h3 h4 => checkRequests_closed O st i o vin vout id req h1 h2 h3 h4,
    fun req e h1 h2 h3 h4 hp => ?_,
    fun req h1 h2 h3 h4 hp => ?_⟩
  · have he : (getRequest st id).1 = .error .unknownRequest := by
      rw [getRequest, if_pos h3]
    exact checkRequests_lookup_error O st i o vin vout id _ h1 h2 he
  · rw [checkRequests_body O st i o vin vout id req h1 h2 h3 h4, hp]
  · rw [checkRequests_body O st i o vin vout id req h1 h2 h3 h4, hp]

theorem claim_C2_witness :
    toyOracle.validateVin [1] = false ∧
    hasRequest ([] : Store) 5 = false ∧
    checkRequests toyOracle [] 0 0 [1] (wVout 0 0) 5 =
      (some (.error .invalidVin), []) :=
  ⟨by decide, by decide,
   (claim_C2_check_order toyOracle [] 0 0 [1] (wVout 0 0) 5).1 (by decide)⟩

/-- C3: Value floor: for an active stored request with a pay constraint
(paysDigest not the zero sentinel) and a nonzero paysValue, when the output
extracted at outputIndex matches the pay digest, checkRequests returns
RequestValue exactly when the extracted value is strictly below paysValue
(a value equal to paysValue passes the value check); and a request whose
paysDigest is the zero sentinel can never produce a RequestValue error,
whatever its paysValue. -/
theorem claim_C3_value_floor (O : Oracle) (st : Store) (i o : Nat)
    (vin vout : Bytes) (id : Nat) (req : ProofRequest) (out : Bytes) :
    (O.validateVin vin = true → O.validateVout vout = true →
      (getRequest st id).1 = .ok req → req.activeState = true →
      req.pays ≠ zeroDigest →
      O.extractOutputAtIndex vout o = .ok out → 8 ≤ out.length →
      O.hash256 (out.drop 8) = req.pays → req.paysValue ≠ 0 →
      ((checkRequests O st i o vin vout id).1 =
          some (.error (.requestValue id)) ↔
        O.extractValue out < req.paysValue)) ∧
    ((getRequest st id).1 = .ok req → req.pays = zeroDigest →
      ∀ j, (checkRequests O st i o vin vout id).1 ≠
        some (.error (.requestValue j))) := by
  constructor
  · intro h1 h2 h3 h4 hne hex hlen hdig hpv
    have hpay := payCheck_eval O req o vout id out hne hex hlen
    rw [if_neg (fun hc => hc hdig)] at hpay
    by_cases hlt : O.extractValue out < req.paysValue
    · rw [if_pos ⟨hpv, hlt⟩] at hpay
      rw [checkRequests_body O st i o vin vout id req h1 h2 h3 h4, hpay]
      exact ⟨fun _ => hlt, fun _ => rfl⟩
    · rw [if_neg (fun hc => hlt hc.2)] at hpay
      rw [checkRequests_body O st i o vin vout id req h1 h2 h3 h4, hpay]
      exact ⟨fun hcontra => absurd (Option.some.inj hcontra)
        (spendCheck_ne_requestValue O req i vin id id),
        fun hc => absurd hc hlt⟩
  · intro h3 hzero j hcontra
    by_cases h1 : O.validateVin vin = false
    · rw [checkRequests_invalidVin O st i o vin vout id h1] at hcontra
      simp at hcontra
    · have h1' : O.validateVin vin = true := by
        revert h1; cases O.validateVin vin <;> simp
      by_cases h2 : O.validateVout vout = false
      · rw [checkRequests_invalidVout O st i o vin vout id h1' h2] at hcontra
        simp at hcontra
      · have h2' : O.validateVout vout = true := by
          revert h2; cases O.validateVout vout <;> simp
        by_cases h4 : req.activeState = false
        · rw [checkRequests_closed O st i o vin vout id req h1' h2' h3 h4] at hcontra
          simp at hcontra
        · have h4' : req.activeState = true := by
            revert h4; cases req.activeState <;> simp
          rw [checkRequests_body O st i o vin vout id req h1' h2' h3 h4',
            payCheck_zero O req o vout id hzero] at hcontra
          exact spendCheck_ne_requestValue O req i vin id j
            (Option.some.inj hcontra)

theorem claim_C3_witness :
    (checkRequests toyOracle wSt3 0 0 wVin (wVout 999 5) 0).1 =
      some (.error (.requestValue 0)) ∧
    (checkRequests toyOracle wSt3 0 0 wVin (wVout 1000 5) 0).1 ≠
      some (.error (.requestValue 0)) :=
  ⟨((claim_C3_value_floor toyOracle wSt3 0 0 wVin (wVout 999 5) 0 wReq3
      (wVout 999 5)).1 (by decide) (by decide) (by decide) (by decide)
      (by decide) (by decide) (by decide) (by decide) (by decide)).mpr
      (by decide),
   fun h => absurd
     (((claim_C3_value_floor toyOracle wSt3 0 0 wVin (wVout 1000 5) 0 wReq3
       (wVout 1000 5)).1 (by decide) (by decide) (by decide) (by decide)
       (by decide) (by decide) (by decide) (by decide) (by decide)).mp h)
     (by decide)⟩

/-- C4: Wildcard acceptance: a request created with empty spends and empty
pays bytes is stored with both digests equal to the zero sentinel and active;
and any stored, active record with both digests equal to the zero sentinel
makes checkRequests accept for every structurally valid vin and vout and all
input/output indices (both constraint blocks are skipped). -/
theorem claim_C4_wildcard (O : Oracle) :
    (∀ (st : Store) (pv nc og : Nat) (ac : Bytes) (st2 : Store) (evs : List Event),
      setRequest O st [] [] pv nc og ac = (.ok (), st2, evs) →
      ∀ ev ∈ evs, (getRequest st2 ev.id).1 =
        .ok ⟨zeroDigest, zeroDigest, pv, true, nc, og, ac⟩) ∧
    (∀ (st : Store) (i o : Nat) (vin vout : Bytes) (id : Nat) (req : ProofRequest),
      (getRequest st id).1 = .ok req →
      req.spends = zeroDigest → req.pays = zeroDigest → req.activeState = true →
      O.validateVin vin = true → O.validateVout vout = true →
      checkRequests O st i o vin vout id = (some (.ok ()), st)) := by
  constructor
  · intro st pv nc og ac st2 evs hset ev hev
    cases hkv : Store.getKV st requestIDTag with
    | none =>
      rw [setRequest_eval_none O st [] [] pv nc og ac hkv] at hset
      injection hset with h1 h23
      injection h23 with h2 h3
      rw [← h3] at hev
      simp only [List.mem_singleton] at hev
      have hevid : ev.id = 0 := by rw [hev]
      rw [← h2, hevid]
      refine (getRequest_eq_ok _ _ _).mpr
        ⟨marshalRequest (mkRequest O [] [] pv nc og ac), ?_, ?_⟩
      · rw [getKV_setKV_ne _ _ _ _ (beU64_ne_requestIDTag 0), getKV_setKV_self]
      · rw [unmarshal_marshal]
        rfl
    | some bs =>
      by_cases hl : bs.length = 8
      · rw [setRequest_eval_some8 O st [] [] pv nc og ac bs hkv hl] at hset
        injection hset with h1 h23
        injection h23 with h2 h3
        rw [← h3] at hev
        simp only [List.mem_singleton] at hev
        have hevid : ev.id = beToNat bs := by rw [hev]
        rw [← h2, hevid]
        refine (getRequest_eq_ok _ _ _).mpr
          ⟨marshalRequest (mkRequest O [] [] pv nc og ac), ?_, ?_⟩
        · rw [getKV_setKV_ne _ _ _ _ (beU64_ne_requestIDTag _), getKV_setKV_self]
        · rw [unmarshal_marshal]
          rfl
      · rw [setRequest_eval_bad O st [] [] pv nc og ac bs hkv hl] at hset
        injection hset with h1 _
        exact Except.noConfusion h1
  · intro st i o vin vout id req hok hsp hpa h4 h5 h6
    rw [checkRequests_body O st i o vin vout id req h5 h6 hok h4,
      payCheck_zero O req o vout id hpa,
      spendCheck_zero O req i vin id hsp]

theorem claim_C4_witness :
    checkRequests toyOracle wSt4 3 7 wVin (wVout 1 2) 0 = (some (.ok ()), wSt4) :=
  (claim_C4_wildcard toyOracle).2 wSt4 3 7 wVin (wVout 1 2) 0 wReq4 (by decide)
    (by decide) (by decide) (by decide) (by decide) (by decide)

/-- C5: Closed request: after a successful setRequestState(id, false), every
checkRequests call referencing id that passes structural validation fails
with ClosedRequest, whatever the request's digest and value constraints; and
this persists in any state in which the stored record for id is inactive
(i.e. until a subsequent reactivation rewrites the record). -/
theorem claim_C5_closed (st : Store) (id : Nat) :
    (∀ st1, setRequestState st id false = (.ok (), st1) →
      ∀ (O : Oracle) (i o : Nat) (vin vout : Bytes),
        O.validateVin vin = true → O.validateVout vout = true →
        checkRequests O st1 i o vin vout id =
          (some (.error .closedRequest), st1)) ∧
    (∀ (O : Oracle) (st' : Store) (i o : Nat) (vin vout : Bytes)
        (req : ProofRequest),
      (getRequest st' id).1 = .ok req → req.activeState = false →
      O.validateVin vin = true → O.validateVout vout = true →
      checkRequests O st' i o vin vout id =
        (some (.error .closedRequest), st')) := by
  constructor
  · intro st1 hset O i o vin vout h1 h2
    cases hg : (getRequest st id).1 with
    | error e =>
      rw [setRequestState, getRequest_eta st id, hg] at hset
      injection hset with hr hs
      exact Except.noConfusion hr
    | ok r =>
      rw [setRequestState_ok st id false r hg] at hset
      injection hset with hr hs
      rw [← hs]
      refine checkRequests_closed O _ i o vin vout id
        { r with activeState := false } h1 h2 ?_ rfl
      rw [getRequest_marshal]
  · intro O st' i o vin vout req hok hinact h1 h2
    exact checkRequests_closed O st' i o vin vout id req h1 h2 hok hinact

theorem claim_C5_witness :
    checkRequests toyOracle
      (Store.setKV wSt4 (beU64 0)
        (marshalRequest { wReq4 with activeState := false }))
      0 0 wVin (wVout 1 2) 0 =
      (some (.error .closedRequest),
       Store.setKV wSt4 (beU64 0)
         (marshalRequest { wReq4 with activeState := false })) :=
  (claim_C5_closed wSt4 0).1 _ (by decide) toyOracle 0 0 wVin (wVout 1 2)
    (by decide) (by decide)

/-- C6: setRequestState frame property and round-trip: on an existing record
it succeeds, changes only the activeState field of the record stored at id
(every other key of the store is untouched), deactivation followed by
reactivation restores the record with activeState true and all other fields
as originally; on an absent id it fails with UnknownRequest and leaves the
store unchanged. -/
theorem claim_C6_setActive_frame (st : Store) (id : Nat) :
    (∀ (r : ProofRequest) (b : Bool), (getRequest st id).1 = .ok r →
      (setRequestState st id b).1 = .ok () ∧
      (getRequest (setRequestState st id b).2 id).1 =
        .ok { r with activeState := b } ∧
      (∀ k, k ≠ beU64 id →
        Store.getKV (setRequestState st id b).2 k = Store.getKV st k)) ∧
    (∀ r : ProofRequest, (getRequest st id).1 = .ok r →
      (getRequest (setRequestState (setRequestState st id false).2 id true).2
        id).1 = .ok { r with activeState := true }) ∧
    (∀ b : Bool, hasRequest st id = false →
      setRequestState st id b = (.error .unknownRequest, st)) := by
  refine ⟨?_, ?_, ?_⟩
  · intro r b hok
    have hstep := setRequestState_ok st id b r hok
    have h1 : (setRequestState st id b).1 = .ok () := by rw [hstep]
    have h2s : (setRequestState st id b).2 =
        Store.setKV st (beU64 id) (marshalRequest { r with activeState := b }) := by
      rw [hstep]
    refine ⟨h1, ?_, ?_⟩
    · rw [h2s, getRequest_marshal]
    · intro k hk
      rw [h2s]
      exact getKV_setKV_ne st (beU64 id) k _ hk
  · intro r hok
    have hstep1 := setRequestState_ok st id false r hok
    have hs1 : (setRequestState st id false).2 =
        Store.setKV st (beU64 id)
          (marshalRequest { r with activeState := false }) := by
      rw [hstep1]
    rw [hs1]
    have h1 : (getRequest (Store.setKV st (beU64 id)
        (marshalRequest { r with activeState := false })) id).1 =
        .ok { r with activeState := false } := by
      rw [getRequest_marshal]
    have hstep2 := setRequestState_ok _ id true _ h1
    have hs2 : (setRequestState (Store.setKV st (beU64 id)
        (marshalRequest { r with activeState := false })) id true).2 =
        Store.setKV (Store.setKV st (beU64 id)
          (marshalRequest { r with activeState := false })) (beU64 id)
          (marshalRequest { { r with activeState := false }
            with activeState := true }) := by
      rw [hstep2]
    rw [hs2, getRequest_marshal]
  · intro b habs
    exact setRequestState_absent st id b habs

theorem claim_C6_witness :
    setRequestState ([] : Store) 3 true = (.error .unknownRequest, []) ∧
    (getRequest (setRequestState (setRequestState wSt4 0 false).2 0 true).2
      0).1 = .ok { wReq4 with activeState := true } :=
  ⟨(claim_C6_setActive_frame [] 3).2.2 true (by decide),
   (claim_C6_setActive_frame wSt4 0).2.1 wReq4 (by decide)⟩

/-- C7: Validator purity: checkRequests leaves the store exactly as it was,
whether it accepts, rejects or panics, and replaying it against its own
resulting state yields the same verdict and the same state. -/
theorem claim_C7_check_pure (O : Oracle) (st : Store) (i o : Nat)
    (vin vout : Bytes) (id : Nat) :
    (checkRequests O st i o vin vout id).2 = st ∧
    checkRequests O (checkRequests O st i o vin vout id).2 i o vin vout id =
      checkRequests O st i o vin vout id := by
  refine ⟨checkRequests_snd O st i o vin vout id, ?_⟩
  rw [checkRequests_snd O st i o vin vout id]

/-- C8: evaluation at the failing input for the pay-branch extraction.  For
an active request with a pay constraint, a structurally valid one-output
vout and the out-of-range outputIndex 1, extraction fails, the discarded
error leaves out as the empty byte string, and the Go slice out[8:] is out
of bounds: checkRequests ends in the modelled runtime panic (none) instead
of any verdict, so the operation is not total on this branch. -/
theorem claim_C8_pay_branch_panics :
    toyOracle.validateVout (wVout 50 7) = true ∧
    (toyOracle.extractOutputAtIndex (wVout 50 7) 1).toOption = none ∧
    checkRequests toyOracle wSt8 0 1 wVin (wVout 50 7) 0 = (none, wSt8) :=
  ⟨by decide, by decide, by decide⟩

/-- C9: Counter arithmetic: with an 8-byte counter value stored, incrementID
replaces it by the 8-byte big-endian encoding of (value + 1) mod 2^64 — at
2^64 - 1 it silently wraps to eight zero bytes (witness) — and getNextID on
an absent counter key lazily initializes it to eight zero bytes and returns
ID 0, returns the decoded value on an 8-byte counter, and fails with
MalformedCounter exactly when the stored bytes are not 8 bytes long. -/
theorem claim_C9_counter (st : Store) (bs : Bytes) :
    (Store.getKV st requestIDTag = some bs → bs.length = 8 →
      incrementID st = (.ok (),
        Store.setKV st requestIDTag (beU64 ((beToNat bs + 1) % 2 ^ 64)))) ∧
    (Store.getKV st requestIDTag = none →
      getNextID st = (.ok 0, Store.setKV st requestIDTag (List.replicate 8 0))) ∧
    (Store.getKV st requestIDTag = some bs → bs.length = 8 →
      getNextID st = (.ok (beToNat bs), st)) ∧
    (Store.getKV st requestIDTag = some bs → bs.length ≠ 8 →
      getNextID st = (.error .malformedCounter, st)) := by
  refine ⟨?_, ?_, ?_, ?_⟩
  · intro h hl
    rw [incrementID_some st bs h hl, beU64_mod]
  · exact getNextID_none st
  · intro h hl
    rw [getNextID_some st bs h, newRequestID, if_pos hl]
  · intro h hl
    rw [getNextID_some st bs h, newRequestID, if_neg hl]

theorem claim_C9_witness :
    incrementID wCtrMax =
      (.ok (), Store.setKV wCtrMax requestIDTag (List.replicate 8 0)) ∧
    getNextID ([] : Store) =
      (.ok 0, Store.setKV [] requestIDTag (List.replicate 8 0)) ∧
    getNextID wBadCtr = (.error .malformedCounter, wBadCtr) := by
  refine ⟨?_, ?_, ?_⟩
  · have h := (claim_C9_counter wCtrMax (beU64 (2 ^ 64 - 1))).1 (by decide)
      (length_beU64 _)
    rw [h, show beU64 ((beToNat (beU64 (2 ^ 64 - 1)) + 1) % 2 ^ 64) =
      List.replicate 8 0 from by decide]
  · exact (claim_C9_counter [] []).2.1 rfl
  · exact (claim_C9_counter wBadCtr [1, 2, 3]).2.2.2 (by decide) (by decide)

/-- C10: Create error atomicity: whenever setRequest returns an error, the
store it returns is exactly the input store (no record written, counter not
incremented, not even the lazy counter initialization, which only happens on
the success path) and no event is emitted; moreover the increment stage
cannot fail once the allocation stage has succeeded (once getNextID returned
an ID, incrementing after the record write always succeeds), so the
"record stored but increment failed" error path of the code is unreachable. -/
theorem claim_C10_create_atomicity (O : Oracle) (st : Store) (sp pa : Bytes)
    (pv nc og : Nat) (ac : Bytes) :
    (∀ e st2 evs, setRequest O st sp pa pv nc og ac = (.error e, st2, evs) →
      st2 = st ∧ evs = []) ∧
    (∀ idv st1, getNextID st = (.ok idv, st1) →
      (incrementID (Store.setKV st1 (beU64 idv)
        (marshalRequest (mkRequest O sp pa pv nc og ac)))).1 = .ok ()) := by
  constructor
  · intro e st2 evs hset
    cases hkv : Store.getKV st requestIDTag with
    | none =>
      rw [setRequest_eval_none O st sp pa pv nc og ac hkv] at hset
      injection hset with h1 _
      exact Except.noConfusion h1
    | some bs =>
      by_cases hl : bs.length = 8
      · rw [setRequest_eval_some8 O st sp pa pv nc og ac bs hkv hl] at hset
        injection hset with h1 _
        exact Except.noConfusion h1
      · rw [setRequest_eval_bad O st sp pa pv nc og ac bs hkv hl] at hset
        injection hset with h1 h23
        injection h23 with h2 h3
        exact ⟨h2.symm, h3.symm⟩
  · intro idv st1 hg
    obtain ⟨bs, hbs, hlbs⟩ := getNextID_ok_counter st idv st1 hg
    rw [incrementID_some _ bs
      (by rw [getKV_setKV_ne _ _ _ _ (requestIDTag_ne_beU64 idv)]; exact hbs)
      hlbs]

theorem claim_C10_witness :
    setRequest toyOracle wBadCtr [3] [4] 5 1 2 [9] =
      (.error .malformedCounter, wBadCtr, ([] : List Event)) ∧
    wBadCtr = wBadCtr ∧ ([] : List Event) = [] :=
  ⟨by decide,
   (claim_C10_create_atomicity toyOracle wBadCtr [3] [4] 5 1 2 [9]).1
     .malformedCounter wBadCtr [] (by decide)⟩
